import Mathlib

/-!
Formal model of the `center` tool (src/main.c): a periodic-aware centering
pipeline for molecular-simulation frames.  The pure geometry (circular-mean
centroid, translation planning, periodic translation) is embedded over the
real numbers; the streaming orchestrator of `main` (src/main.c lines 160-296)
is embedded as a pure function from an environment of external results (file
loads, selection resolution, read outcomes, write successes) to an exit code
and a trace of I/O events.

Functions of the groan library (center_of_geometry, selection_translate,
reset_velocities) are not part of this repository checkout; they are modelled
from the specification, as indicated in their doc comments.  Everything else
follows src/main.c.
-/

namespace Center

/-- A 3D vector of real coordinates, modelling the C type `vec_t` (float[3]).
Machine floats are modelled as real numbers. -/
structure Vec3 where
  x : ℝ
  y : ℝ
  z : ℝ

/-- Modelled from the spec: the per-axis circular mean used by groan
`center_of_geometry`, which is not under src/.  Spec section 4.1: map each
coordinate p to the angle 2*pi*p/L, average sines and cosines, take
atan2(S, C) (realised as `Complex.arg` of the point with real part C and
imaginary part S), scale back by L/(2*pi), and normalize into [0, L) by
adding L if negative. -/
noncomputable def circCenter1D (ps : List ℝ) (L : ℝ) : ℝ :=
  let S := (ps.map fun p => Real.sin (2 * Real.pi * p / L)).sum / (ps.length : ℝ)
  let C := (ps.map fun p => Real.cos (2 * Real.pi * p / L)).sum / (ps.length : ℝ)
  let theta := Complex.arg ⟨C, S⟩
  let c := theta / (2 * Real.pi) * L
  if c < 0 then c + L else c

/-- Modelled from the spec: groan `center_of_geometry(selection, center, box)`
(called at src/main.c:195 and 268), computing the circular-mean center of the
selected positions on every axis.  Spec section 4.1 leaves disabled axes
unspecified, so computing all three is a faithful refinement. -/
noncomputable def center_of_geometry (ps : List Vec3) (box : Vec3) : Vec3 :=
  ⟨circCenter1D (ps.map Vec3.x) box.x,
   circCenter1D (ps.map Vec3.y) box.y,
   circCenter1D (ps.map Vec3.z) box.z⟩

/-- The arithmetic (non-circular) mean of a list of coordinates; used only to
express that the circular mean differs from it on boundary-straddling data. -/
noncomputable def arithMean (ps : List ℝ) : ℝ := ps.sum / (ps.length : ℝ)

/-- Embedding of `set_translation` (src/main.c:108-113): on each enabled axis
write box/2 - center into the translation vector, leaving other components at
their incoming value.  The C function mutates its first argument; here the
incoming vector is a parameter and the updated vector is returned. -/
noncomputable def set_translation (translation : Vec3) (box : Vec3)
    (center : Vec3) (x y z : Bool) : Vec3 :=
  let t1 := if x then { translation with x := box.x / 2 - center.x } else translation
  let t2 := if y then { t1 with y := box.y / 2 - center.y } else t1
  if z then { t2 with z := box.z / 2 - center.z } else t2

/-- The translation planned by `main`: the caller sets the translation
vector to zero (src/main.c:196, 269) and then calls `set_translation`
(src/main.c:197, 270), so disabled axes keep translation 0. -/
noncomputable def plan_translation (box : Vec3) (center : Vec3)
    (x y z : Bool) : Vec3 :=
  set_translation ⟨0, 0, 0⟩ box center x y z

/-- Modelled from the spec: the single-axis translation-with-wrap of groan
`selection_translate`, which is not under src/.  Spec section 4.3: new =
old + t; if new < 0 add the box length; if new is at least the box length,
subtract it (a single wrap). -/
noncomputable def translate1D (p t L : ℝ) : ℝ :=
  let np := p + t
  if np < 0 then np + L else if np ≥ L then np - L else np

/-- Modelled from the spec: groan `selection_translate(selection, translation,
box)` (called at src/main.c:198 and 271), which is not under src/.  Spec
section 4.3: every atom is translated with periodic wrap on each axis with a
non-zero translation; axes with zero translation are left untouched (no
redundant wrap). -/
noncomputable def selection_translate (atoms : List Vec3) (t : Vec3)
    (box : Vec3) : List Vec3 :=
  atoms.map fun a =>
    ⟨if t.x = 0 then a.x else translate1D a.x t.x box.x,
     if t.y = 0 then a.y else translate1D a.y t.y box.y,
     if t.z = 0 then a.z else translate1D a.z t.z box.z⟩

/-- The system buffer loaded from the gro file: atom positions, atom
velocities and the box vector (src/main.c:160, groan `system_t`). -/
structure System where
  atoms : List Vec3
  velocities : List Vec3
  box : Vec3

/-- One trajectory frame as delivered by `read_xtc_step`: positions, box and
metadata.  `timeTrunc` models `(int) system->time`, the simulation time as
already truncated to an integer by the C cast at src/main.c:256. -/
structure FrameData where
  atoms : List Vec3
  box : Vec3
  step : ℤ
  timeTrunc : ℤ
  precision : ℝ

/-- The centering pipeline applied by `main` to the loaded structure in
single-frame mode (src/main.c:193-198): compute the circular-mean center of
the reference atoms, plan the translation, translate all atoms.  The
reference selection is a list of indices into the atom buffer. -/
noncomputable def centerSystem (ref : List ℕ) (cx cy cz : Bool)
    (s : System) : System :=
  let refPos := ref.filterMap fun i => s.atoms[i]?
  let c := center_of_geometry refPos s.box
  let t := set_translation ⟨0, 0, 0⟩ s.box c cx cy cz
  { s with atoms := selection_translate s.atoms t s.box }

/-- The centering pipeline applied by `main` to a trajectory frame
(src/main.c:266-271): same steps as `centerSystem`, on the frame buffer. -/
noncomputable def centerFrame (ref : List ℕ) (cx cy cz : Bool)
    (f : FrameData) : FrameData :=
  let refPos := ref.filterMap fun i => f.atoms[i]?
  let c := center_of_geometry refPos f.box
  let t := set_translation ⟨0, 0, 0⟩ f.box c cx cy cz
  { f with atoms := selection_translate f.atoms t f.box }

/-- Modelled from the spec: groan `reset_velocities` (called at
src/main.c:226), not under src/; the source comment at src/main.c:225 states
that it sets all velocities of all particles to zero. -/
def resetVelocities (s : System) : System :=
  { s with velocities := s.velocities.map fun _ => ⟨0, 0, 0⟩ }

/-- Result of one `read_xtc_step` call (src/main.c:253): `ok f w` is a
successful read (return value 0) delivering frame `f`, where `w` records
whether a subsequent `write_xtc_step` of this frame would succeed; `bad c` is
a non-zero return value `c`, which the C library uses both for ordinary end
of stream and for a broken or corrupted frame. -/
inductive Outcome where
  | ok (f : FrameData) (w : Bool)
  | bad (c : ℤ)

/-- I/O events performed by `main`, in program order. -/
inductive Event where
  | loadGroEv (ok : Bool)
  | readNdxEv
  | openOutputEv (ok : Bool)
  | openXtcEv (ok : Bool)
  | resetVelEv (vels : List Vec3)
  | validateEv (ok : Bool)
  | writeGroEv (vels : List Vec3) (ok : Bool)
  | readFrameEv
  | writeFrameEv

/-- Result of the streaming loop: the frames written to the output, the
progress messages emitted (step, truncated time), the I/O events, and the
value returned from `main` when the loop decides it (0 on normal loop exit,
1 on write failure). -/
structure LoopRes where
  written : List FrameData
  progress : List (ℤ × ℤ)
  events : List Event
  code : ℕ

/-- Embedding of the streaming loop of `main` (src/main.c:252-284).  Each
iteration reads one outcome; a non-zero read return ends the loop with
return value 0 (the C `while` condition at line 253 conflates end of stream
with a broken read).  After a successful read the progress check
`(int) system->time % PROGRESS_FREQ == 0` (line 256) is evaluated, then the
skip test `frames % skip != 0` (line 261) discards the frame (counter still
incremented), otherwise the frame is centered by `pipe` and written; a failed
write returns 1 immediately (lines 273-281).  The counter argument starts at
0 and is incremented once per frame read. -/
def mainLoop (pipe : FrameData → FrameData) (skip : ℕ) :
    List Outcome → ℕ → LoopRes
  | [], _ => ⟨[], [], [], 0⟩
  | Outcome.bad _ :: _, _ => ⟨[], [], [Event.readFrameEv], 0⟩
  | Outcome.ok f w :: rest, frames =>
    let prog := if f.timeTrunc % 10000 = 0 then [(f.step, f.timeTrunc)] else []
    if frames % skip ≠ 0 then
      let r := mainLoop pipe skip rest (frames + 1)
      ⟨r.written, prog ++ r.progress, Event.readFrameEv :: r.events, r.code⟩
    else if w then
      let r := mainLoop pipe skip rest (frames + 1)
      ⟨pipe f :: r.written, prog ++ r.progress,
       Event.readFrameEv :: Event.writeFrameEv :: r.events, r.code⟩
    else ⟨[], prog, [Event.readFrameEv, Event.writeFrameEv], 1⟩

/-- The streaming loop with the progress side channel removed; used to state
that progress reporting never affects what is written or the exit code. -/
def mainLoopNP (pipe : FrameData → FrameData) (skip : ℕ) :
    List Outcome → ℕ → List FrameData × ℕ
  | [], _ => ([], 0)
  | Outcome.bad _ :: _, _ => ([], 0)
  | Outcome.ok f w :: rest, frames =>
    if frames % skip ≠ 0 then mainLoopNP pipe skip rest (frames + 1)
    else if w then
      let r := mainLoopNP pipe skip rest (frames + 1)
      (pipe f :: r.1, r.2)
    else ([], 1)

/-- Results of the external world that `main` consumes: the gro load result,
the resolved reference selection (`none` models a NULL return of
smart_select, `some []` an empty selection), whether an xtc file was
supplied, the open / validate / open-output / write-gro outcomes, and the
stream of frame-read outcomes. -/
structure Env where
  gro : Option System
  sel : Option (List ℕ)
  xtcSupplied : Bool
  xtcOpenOk : Bool
  validOk : Bool
  outOpenOk : Bool
  groWriteOk : Bool
  reads : List Outcome

/-- Embedding of `main` from the gro load onward (src/main.c:159-296),
returning the process exit code and the trace of I/O events.  Order of
checks and I/O follows the source: load gro (160), read ndx (164), resolve
and test the reference selection (170-179); in single-frame mode open the
output, center and write the gro (182-212); in trajectory mode open the xtc
(215), reset velocities (226), validate the atom count (229), open the
output xtc (240) and run the streaming loop (252-284), whose return value
becomes the exit code. -/
noncomputable def mainRun (env : Env) (skip : ℕ) (cx cy cz : Bool) :
    ℕ × List Event :=
  match env.gro with
  | none => (1, [Event.loadGroEv false])
  | some system =>
    let tr0 := [Event.loadGroEv true, Event.readNdxEv]
    match env.sel with
    | none => (1, tr0)
    | some ref =>
      if ref.length = 0 then (1, tr0)
      else if env.xtcSupplied = false then
        if env.outOpenOk = false then (1, tr0 ++ [Event.openOutputEv false])
        else
          let sys2 := centerSystem ref cx cy cz system
          ((if env.groWriteOk then 0 else 1),
           tr0 ++ [Event.openOutputEv true,
                   Event.writeGroEv sys2.velocities env.groWriteOk])
      else
        if env.xtcOpenOk = false then (1, tr0 ++ [Event.openXtcEv false])
        else
          let system2 := resetVelocities system
          let tr1 := tr0 ++ [Event.openXtcEv true,
                             Event.resetVelEv system2.velocities]
          if env.validOk = false then (1, tr1 ++ [Event.validateEv false])
          else if env.outOpenOk = false then
            (1, tr1 ++ [Event.validateEv true, Event.openOutputEv false])
          else
            let r := mainLoop (centerFrame ref cx cy cz) skip env.reads 0
            (r.code,
             tr1 ++ [Event.validateEv true, Event.openOutputEv true] ++ r.events)

/-- Whether a read outcome is a successful read whose write would succeed. -/
def okW : Outcome → Bool
  | Outcome.ok _ w => w
  | Outcome.bad _ => false

/-- The frame of a successful read outcome. -/
def frameOf : Outcome → Option FrameData
  | Outcome.ok f _ => some f
  | Outcome.bad _ => none

/-- The frames delivered by the successful reads of an outcome list. -/
def okFrames (l : List Outcome) : List FrameData := l.filterMap frameOf

/-- The frames a run of the loop writes for input frames `l` when the frame
counter starts at `n`: those whose counter value is divisible by the skip
interval, centered, in input order. -/
def processedOut (pipe : FrameData → FrameData) (skip : ℕ)
    (l : List FrameData) (n : ℕ) : List FrameData :=
  ((l.enumFrom n).filter fun p => p.1 % skip = 0).map fun p => pipe p.2

/-- The progress messages the loop emits for input frames `l`: one (step,
time) pair for every frame whose truncated time is divisible by 10000,
independent of the skip policy. -/
def progressOut (l : List FrameData) : List (ℤ × ℤ) :=
  l.filterMap fun f =>
    if f.timeTrunc % 10000 = 0 then some (f.step, f.timeTrunc) else none

/-- Sample box for concrete instances. -/
def boxW : Vec3 := ⟨10, 10, 10⟩

/-- Sample frames for concrete instances. -/
def fdA : FrameData := ⟨[⟨1, 5, 5⟩], boxW, 0, 0, 1000⟩

/-- Second sample frame. -/
def fdB : FrameData := ⟨[⟨2, 5, 5⟩], boxW, 1, 20, 1000⟩

/-- Third sample frame. -/
def fdC : FrameData := ⟨[⟨3, 5, 5⟩], boxW, 2, 10000, 1000⟩

/-- Sample loaded system for concrete instances. -/
def sysW : System := ⟨[⟨1, 5, 5⟩, ⟨9, 5, 5⟩], [⟨1, 2, 3⟩, ⟨4, 5, 6⟩], boxW⟩

/-- A fully successful environment around a given read stream: gro loads,
the reference selection resolves to two atoms, an xtc file is supplied and
all opens, validations and writes succeed. -/
def envHappy (reads : List Outcome) : Env :=
  ⟨some sysW, some [0, 1], true, true, true, true, true, reads⟩

/-- Environment whose read stream hits a broken read in mid-stream: a
successful read, then a non-zero read result, then one more frame that is
never reached. -/
def envC6 : Env :=
  envHappy [Outcome.ok fdA true, Outcome.bad 5, Outcome.ok fdB true]

/-- Evaluation helper: `circCenter1D` once the averaged sine and cosine are
known. -/
theorem circCenter1D_eval (ps : List ℝ) (L S C : ℝ)
    (hS : (ps.map fun p => Real.sin (2 * Real.pi * p / L)).sum / (ps.length : ℝ) = S)
    (hC : (ps.map fun p => Real.cos (2 * Real.pi * p / L)).sum / (ps.length : ℝ) = C) :
    circCenter1D ps L =
      if Complex.arg ⟨C, S⟩ / (2 * Real.pi) * L < 0
      then Complex.arg ⟨C, S⟩ / (2 * Real.pi) * L + L
      else Complex.arg ⟨C, S⟩ / (2 * Real.pi) * L := by
  simp only [circCenter1D]
  rw [hS, hC]

/-- On the seam-straddling pair {1, 9} in a box of length 10 the circular
mean is exactly 0 (the seam), not the arithmetic mean 5. -/
theorem circCenter1D_boundary_x : circCenter1D [(1 : ℝ), 9] 10 = 0 := by
  have hA9 : 2 * Real.pi * 9 / 10 = 2 * Real.pi - 2 * Real.pi * 1 / 10 := by ring
  have hs : Real.sin (2 * Real.pi * 9 / 10) = -Real.sin (2 * Real.pi * 1 / 10) := by
    rw [hA9, Real.sin_sub, Real.sin_two_pi, Real.cos_two_pi]; ring
  have hc : Real.cos (2 * Real.pi * 9 / 10) = Real.cos (2 * Real.pi * 1 / 10) := by
    rw [hA9, Real.cos_sub, Real.sin_two_pi, Real.cos_two_pi]; ring
  have hcos : 0 ≤ Real.cos (2 * Real.pi * 1 / 10) := by
    apply Real.cos_nonneg_of_mem_Icc
    constructor
    · nlinarith [Real.pi_pos]
    · nlinarith [Real.pi_pos]
  have hS : (([(1 : ℝ), 9].map fun p => Real.sin (2 * Real.pi * p / 10)).sum
      / (([(1 : ℝ), 9].length : ℕ) : ℝ) = 0) := by
    simp only [List.map_cons, List.map_nil, List.sum_cons, List.sum_nil,
      List.length_cons, List.length_nil, hs]
    norm_num
  have hC : (([(1 : ℝ), 9].map fun p => Real.cos (2 * Real.pi * p / 10)).sum
      / (([(1 : ℝ), 9].length : ℕ) : ℝ) = Real.cos (2 * Real.pi * 1 / 10)) := by
    simp only [List.map_cons, List.map_nil, List.sum_cons, List.sum_nil,
      List.length_cons, List.length_nil, hc]
    push_cast
    ring
  rw [circCenter1D_eval [(1 : ℝ), 9] 10 0 (Real.cos (2 * Real.pi * 1 / 10)) hS hC]
  have harg : Complex.arg ⟨Real.cos (2 * Real.pi * 1 / 10), (0 : ℝ)⟩ = 0 := by
    have hmk : (⟨Real.cos (2 * Real.pi * 1 / 10), (0 : ℝ)⟩ : ℂ)
        = ((Real.cos (2 * Real.pi * 1 / 10) : ℝ) : ℂ) := rfl
    rw [hmk]
    exact Complex.arg_ofReal_of_nonneg hcos
  rw [harg]
  norm_num

/-- On the pair {5, 5} in a box of length 10 the circular mean is 5. -/
theorem circCenter1D_mid : circCenter1D [(5 : ℝ), 5] 10 = 5 := by
  have h5 : 2 * Real.pi * 5 / 10 = Real.pi := by ring
  have hs : Real.sin (2 * Real.pi * 5 / 10) = 0 := by rw [h5, Real.sin_pi]
  have hc : Real.cos (2 * Real.pi * 5 / 10) = -1 := by rw [h5, Real.cos_pi]
  have hS : (([(5 : ℝ), 5].map fun p => Real.sin (2 * Real.pi * p / 10)).sum
      / (([(5 : ℝ), 5].length : ℕ) : ℝ) = 0) := by
    simp only [List.map_cons, List.map_nil, List.sum_cons, List.sum_nil,
      List.length_cons, List.length_nil, hs]
    norm_num
  have hC : (([(5 : ℝ), 5].map fun p => Real.cos (2 * Real.pi * p / 10)).sum
      / (([(5 : ℝ), 5].length : ℕ) : ℝ) = -1) := by
    simp only [List.map_cons, List.map_nil, List.sum_cons, List.sum_nil,
      List.length_cons, List.length_nil, hc]
    norm_num
  rw [circCenter1D_eval [(5 : ℝ), 5] 10 0 (-1) hS hC]
  have hmk : (⟨(-1 : ℝ), (0 : ℝ)⟩ : ℂ) = (-1 : ℂ) := by
    apply Complex.ext <;> simp
  rw [hmk, Complex.arg_neg_one]
  have hval : Real.pi / (2 * Real.pi) * 10 = 5 := by
    have hne := Real.pi_ne_zero
    field_simp
    ring
  rw [hval]
  norm_num

/-- C1: boundary correctness of the periodic centering pipeline.  For box
(10,10,10) and reference points {(1,5,5), (9,5,5)} straddling the x=0/10
seam, the circular-mean center is (0,5,5), so center x is 0 (mod 10) and not
the arithmetic mean 5; the planned translation with all axes enabled is
(5,0,0), so the x-translation is 5; and applying the single-wrap translation
by 5 in a box of length 10 shifts every x coordinate by exactly +5 modulo
10. -/
theorem c1_boundary_centering :
    center_of_geometry [⟨1, 5, 5⟩, ⟨9, 5, 5⟩] boxW = ⟨0, 5, 5⟩ ∧
    arithMean [(1 : ℝ), 9] = 5 ∧
    (0 : ℝ) ≠ 5 ∧
    plan_translation boxW ⟨0, 5, 5⟩ true true true = ⟨5, 0, 0⟩ ∧
    ∀ xc : ℝ, ∃ k : ℤ, translate1D xc 5 10 = xc + 5 + 10 * (k : ℝ) := by
  refine ⟨?_, ?_, by norm_num, ?_, ?_⟩
  · show Vec3.mk
      (circCenter1D (([⟨1, 5, 5⟩, ⟨9, 5, 5⟩] : List Vec3).map Vec3.x) boxW.x)
      (circCenter1D (([⟨1, 5, 5⟩, ⟨9, 5, 5⟩] : List Vec3).map Vec3.y) boxW.y)
      (circCenter1D (([⟨1, 5, 5⟩, ⟨9, 5, 5⟩] : List Vec3).map Vec3.z) boxW.z)
      = ⟨0, 5, 5⟩
    have hx : (([⟨1, 5, 5⟩, ⟨9, 5, 5⟩] : List Vec3).map Vec3.x) = [(1 : ℝ), 9] := rfl
    have hy : (([⟨1, 5, 5⟩, ⟨9, 5, 5⟩] : List Vec3).map Vec3.y) = [(5 : ℝ), 5] := rfl
    have hz : (([⟨1, 5, 5⟩, ⟨9, 5, 5⟩] : List Vec3).map Vec3.z) = [(5 : ℝ), 5] := rfl
    have hbx : boxW.x = 10 := rfl
    have hby : boxW.y = 10 := rfl
    have hbz : boxW.z = 10 := rfl
    rw [hx, hy, hz, hbx, hby, hbz, circCenter1D_boundary_x, circCenter1D_mid]
  · show ([(1 : ℝ), 9].sum / (([(1 : ℝ), 9].length : ℕ) : ℝ)) = 5
    norm_num
  · simp only [plan_translation, set_translation, if_pos]
    have hbx : boxW.x = 10 := rfl
    simp [boxW]
    norm_num
  · intro xc
    simp only [translate1D]
    by_cases h1 : xc + 5 < 0
    · exact ⟨1, by rw [if_pos h1]; push_cast; ring⟩
    · by_cases h2 : xc + 5 ≥ 10
      · exact ⟨-1, by rw [if_neg h1, if_pos h2]; push_cast; ring⟩
      · exact ⟨0, by rw [if_neg h1, if_neg h2]; push_cast; ring⟩

/-- C3: for every box, center and axis mask, the planned translation is
box/2 - center componentwise on each enabled axis and 0 on each disabled
axis.  `plan_translation` is a total pure function of its arguments, so
planning has no side effects and no failure modes. -/
theorem c3_translation_planning (box center : Vec3) (x y z : Bool) :
    (plan_translation box center x y z).x
        = (if x then box.x / 2 - center.x else 0) ∧
    (plan_translation box center x y z).y
        = (if y then box.y / 2 - center.y else 0) ∧
    (plan_translation box center x y z).z
        = (if z then box.z / 2 - center.z else 0) := by
  cases x <;> cases y <;> cases z <;>
    simp [plan_translation, set_translation]

/-- C4: when only the x axis is enabled, applying the planned frame
translation leaves every y and z coordinate of every atom exactly unchanged
(no wrap is applied on axes whose translation is zero), while every x
coordinate is translated with wrap by box.x/2 - center.x. -/
theorem c4_axis_isolation (box center : Vec3) (atoms : List Vec3)
    (h : box.x / 2 - center.x ≠ 0) :
    (selection_translate atoms
        (plan_translation box center true false false) box).map Vec3.y
        = atoms.map Vec3.y ∧
    (selection_translate atoms
        (plan_translation box center true false false) box).map Vec3.z
        = atoms.map Vec3.z ∧
    (selection_translate atoms
        (plan_translation box center true false false) box).map Vec3.x
        = atoms.map fun a => translate1D a.x (box.x / 2 - center.x) box.x := by
  simp [selection_translate, plan_translation, set_translation, h]

/-- Witness for C4 at the concrete box (10,10,10), center (2,5,5) and a
one-atom list. -/
theorem c4_axis_isolation_witness :
    (boxW.x / 2 - (Vec3.mk 2 5 5).x ≠ 0) ∧
    ((selection_translate [⟨1, 2, 3⟩]
        (plan_translation boxW ⟨2, 5, 5⟩ true false false) boxW).map Vec3.y
        = ([⟨1, 2, 3⟩] : List Vec3).map Vec3.y ∧
     (selection_translate [⟨1, 2, 3⟩]
        (plan_translation boxW ⟨2, 5, 5⟩ true false false) boxW).map Vec3.z
        = ([⟨1, 2, 3⟩] : List Vec3).map Vec3.z ∧
     (selection_translate [⟨1, 2, 3⟩]
        (plan_translation boxW ⟨2, 5, 5⟩ true false false) boxW).map Vec3.x
        = ([⟨1, 2, 3⟩] : List Vec3).map fun a =>
            translate1D a.x (boxW.x / 2 - (Vec3.mk 2 5 5).x) boxW.x) :=
  ⟨by norm_num [boxW],
   c4_axis_isolation boxW ⟨2, 5, 5⟩ [⟨1, 2, 3⟩] (by norm_num [boxW])⟩

/-- The frames of an all-successful prefix are its payload frames. -/
theorem okFrames_cons_ok (f : FrameData) (w : Bool) (l : List Outcome) :
    okFrames (Outcome.ok f w :: l) = f :: okFrames l := by
  simp [okFrames, frameOf]

/-- Unfolding lemma for `processedOut` on a cons cell. -/
theorem processedOut_cons (pipe : FrameData → FrameData) (skip : ℕ)
    (f : FrameData) (fs : List FrameData) (n : ℕ) :
    processedOut pipe skip (f :: fs) n =
      if n % skip = 0 then pipe f :: processedOut pipe skip fs (n + 1)
      else processedOut pipe skip fs (n + 1) := by
  simp only [processedOut, List.enumFrom_cons, List.filter_cons]
  by_cases h : n % skip = 0 <;> simp [h]

/-- Unfolding lemma for `progressOut` on a cons cell. -/
theorem progressOut_cons (f : FrameData) (fs : List FrameData) :
    progressOut (f :: fs) =
      (if f.timeTrunc % 10000 = 0 then [(f.step, f.timeTrunc)] else [])
        ++ progressOut fs := by
  simp only [progressOut, List.filterMap_cons]
  by_cases h : f.timeTrunc % 10000 = 0 <;> simp [h]

/-- Running the loop over an all-successful prefix followed by a tail: the
prefix contributes its processed frames and progress messages, the counter
advances by the prefix length, and the return value is decided by the
tail. -/
theorem mainLoop_append_ok (pipe : FrameData → FrameData) (skip : ℕ)
    (pre tail : List Outcome) :
    ∀ n : ℕ, (∀ o ∈ pre, okW o = true) →
    (mainLoop pipe skip (pre ++ tail) n).written
        = processedOut pipe skip (okFrames pre) n
            ++ (mainLoop pipe skip tail (n + pre.length)).written ∧
    (mainLoop pipe skip (pre ++ tail) n).progress
        = progressOut (okFrames pre)
            ++ (mainLoop pipe skip tail (n + pre.length)).progress ∧
    (mainLoop pipe skip (pre ++ tail) n).code
        = (mainLoop pipe skip tail (n + pre.length)).code := by
  induction pre with
  | nil =>
    intro n _
    simp [okFrames, processedOut, progressOut]
  | cons o pre ih =>
    intro n h
    have ho := h o (List.mem_cons_self o pre)
    have h2 : ∀ x ∈ pre, okW x = true := fun x hm => h x (List.mem_cons_of_mem _ hm)
    cases o with
    | bad c => simp [okW] at ho
    | ok f w =>
      cases w with
      | false => simp [okW] at ho
      | true =>
        obtain ⟨ihw, ihp, ihc⟩ := ih (n + 1) h2
        have hcnt : n + 1 + pre.length = n + (pre.length + 1) := by omega
        rw [hcnt] at ihw ihp ihc
        by_cases hn : n % skip = 0
        · simp only [List.cons_append, mainLoop, hn, ne_eq, not_true_eq_false,
            if_false, if_true, not_false_eq_true, ite_true, ite_false]
          rw [okFrames_cons_ok, processedOut_cons, progressOut_cons]
          simp only [hn, if_pos, List.length_cons]
          refine ⟨?_, ?_, ?_⟩
          · simp [ihw]
          · simp [ihp, List.append_assoc]
          · simpa using ihc
        · simp only [List.cons_append, mainLoop, hn, ne_eq, not_false_eq_true,
            if_true, ite_true]
          rw [okFrames_cons_ok, processedOut_cons, progressOut_cons]
          simp only [hn, if_neg, List.length_cons, ite_false]
          refine ⟨?_, ?_, ?_⟩
          · simpa using ihw
          · simp [ihp, List.append_assoc]
          · simpa using ihc

/-- Counting multiples of a positive `N` below `T` gives the ceiling of
`T / N`. -/
theorem length_filter_range_mod (N : ℕ) (hN : 1 ≤ N) :
    ∀ T : ℕ, ((List.range T).filter fun i => i % N = 0).length
        = (T + N - 1) / N := by
  intro T
  induction T with
  | zero =>
    simp only [List.range_zero, List.filter_nil, List.length_nil]
    symm
    apply Nat.div_eq_of_lt
    omega
  | succ T ih =>
    rw [List.range_succ, List.filter_append, List.length_append, ih]
    have hsplit : T + 1 + N - 1 = T + N - 1 + 1 := by omega
    rw [hsplit, Nat.succ_div]
    have heq : T + N - 1 + 1 = T + N := by omega
    by_cases h : T % N = 0
    · have hdvd : N ∣ T + N - 1 + 1 := by
        rw [heq]
        exact Nat.dvd_add_self_right.mpr (Nat.dvd_of_mod_eq_zero h)
      simp [h, hdvd]
    · have hndvd : ¬ N ∣ T + N - 1 + 1 := by
        rw [heq]
        intro hd
        exact h (Nat.mod_eq_zero_of_dvd (Nat.dvd_add_self_right.mp hd))
      simp [h, hndvd]

/-- The number of frames processed from `T` frames with counter starting at
0 is the ceiling of `T / skip`. -/
theorem processedOut_zero_length (pipe : FrameData → FrameData) (skip : ℕ)
    (hsk : 1 ≤ skip) (l : List FrameData) :
    (processedOut pipe skip l 0).length = (l.length + skip - 1) / skip := by
  have henum : l.enumFrom 0 = l.enum := rfl
  have hcomp : ((List.range l.length).filter fun i => i % skip = 0)
      = ((l.enum.filter fun p => p.1 % skip = 0).map Prod.fst) := by
    rw [← List.enum_map_fst l, List.filter_map]
    rfl
  have hlen : ((l.enum.filter fun p => p.1 % skip = 0).map Prod.fst).length
      = (l.enum.filter fun p => p.1 % skip = 0).length := List.length_map _ _
  unfold processedOut
  rw [List.length_map, henum, ← hlen, ← hcomp, length_filter_range_mod skip hsk]

/-- The streaming loop never emits a velocity-reset event. -/
theorem mainLoop_no_resetVel (pipe : FrameData → FrameData) (skip : ℕ)
    (reads : List Outcome) :
    ∀ n : ℕ, ∀ v : List Vec3,
      Event.resetVelEv v ∉ (mainLoop pipe skip reads n).events := by
  induction reads with
  | nil => intro n v; simp [mainLoop]
  | cons o rest ih =>
    intro n v
    cases o with
    | bad c => simp [mainLoop]
    | ok f w =>
      by_cases hn : n % skip = 0
      · cases w with
        | true => simp [mainLoop, hn]; exact ih (n + 1) v
        | false => simp [mainLoop, hn]
      · simp [mainLoop, hn]; exact ih (n + 1) v

/-- C2: skip fidelity.  For every skip interval N at least 1 and every input
trajectory (a stream of successful reads with successful writes), exactly
the frames at input indices 0, N, 2N, ... are centered (by `pipe`) and
written, in their original relative order and no others; the number written
is the ceiling of T / N; and the loop returns 0.  The frame counter starts
at 0 and is incremented once per frame read, including discarded frames, as
the `List.enum` index formula states. -/
theorem c2_skip_fidelity (pipe : FrameData → FrameData) (N : ℕ)
    (hN : 1 ≤ N) (l : List FrameData) :
    (mainLoop pipe N (l.map fun f => Outcome.ok f true) 0).written
        = ((l.enum.filter fun p => p.1 % N = 0).map fun p => pipe p.2) ∧
    (mainLoop pipe N (l.map fun f => Outcome.ok f true) 0).written.length
        = (l.length + N - 1) / N ∧
    (mainLoop pipe N (l.map fun f => Outcome.ok f true) 0).code = 0 := by
  have hok : ∀ o ∈ l.map fun f => Outcome.ok f true, okW o = true := by
    intro o hm
    simp only [List.mem_map] at hm
    obtain ⟨f, _, rfl⟩ := hm
    rfl
  have happ := mainLoop_append_ok pipe N (l.map fun f => Outcome.ok f true) [] 0 hok
  rw [List.append_nil] at happ
  obtain ⟨hw, _, hc⟩ := happ
  have hfr : okFrames (l.map fun f => Outcome.ok f true) = l := by
    simp only [okFrames, List.filterMap_map]
    have : (frameOf ∘ fun f => Outcome.ok f true) = some := rfl
    rw [this, List.filterMap_some]
  rw [hfr] at hw
  have hnil : ∀ m : ℕ, mainLoop pipe N [] m = ⟨[], [], [], 0⟩ := fun _ => rfl
  rw [hnil] at hw hc
  simp only [List.append_nil] at hw
  have hform : processedOut pipe N l 0
      = ((l.enum.filter fun p => p.1 % N = 0).map fun p => pipe p.2) := rfl
  refine ⟨by rw [hw, hform], ?_, by rw [hc]⟩
  rw [hw, processedOut_zero_length pipe N hN l]

/-- Witness for C2 with skip 2 over three frames: frames 0 and 2 are
written, count is 2 = ceiling of 3 / 2. -/
theorem c2_skip_fidelity_witness :
    (1 ≤ 2) ∧
    ((mainLoop id 2 (([fdA, fdB, fdC] : List FrameData).map fun f => Outcome.ok f true) 0).written
        = ((([fdA, fdB, fdC] : List FrameData).enum.filter fun p => p.1 % 2 = 0).map fun p => id p.2) ∧
     (mainLoop id 2 (([fdA, fdB, fdC] : List FrameData).map fun f => Outcome.ok f true) 0).written.length
        = (([fdA, fdB, fdC] : List FrameData).length + 2 - 1) / 2 ∧
     (mainLoop id 2 (([fdA, fdB, fdC] : List FrameData).map fun f => Outcome.ok f true) 0).code = 0) :=
  ⟨by norm_num, c2_skip_fidelity id 2 (by norm_num) [fdA, fdB, fdC]⟩

/-- Counterexample to C6: in a fully successful trajectory run whose read
stream returns a non-zero code in mid-stream (a frame follows it, so this is
not ordinary exhaustion), the program exits with code 0, not with the
non-zero exit the claim requires. -/
theorem c6_read_error_counterexample :
    envC6.reads = [Outcome.ok fdA true, Outcome.bad 5, Outcome.ok fdB true] ∧
    (mainRun envC6 1 true true true).1 = 0 :=
  ⟨rfl, rfl⟩

/-- C6 (amended): a read returning a non-zero code in mid-stream is treated
exactly like ordinary end of stream — the loop ends, the frames after it are
discarded, and the program exits with code 0.  The `while` condition at
src/main.c:253 conflates the two cases, as the spec itself notes in its
sections 4.4 and 9. -/
theorem c6_read_error_conflated (env : Env) (skip : ℕ) (cx cy cz : Bool)
    (s : System) (ref : List ℕ) (pre rest : List Outcome) (c : ℤ)
    (hg : env.gro = some s) (hs : env.sel = some ref) (hr : ref.length ≠ 0)
    (hx : env.xtcSupplied = true) (ho : env.xtcOpenOk = true)
    (hv : env.validOk = true) (hout : env.outOpenOk = true)
    (hreads : env.reads = pre ++ Outcome.bad c :: rest)
    (hpre : ∀ o ∈ pre, okW o = true) :
    (mainRun env skip cx cy cz).1 = 0 ∧
    (mainLoop (centerFrame ref cx cy cz) skip env.reads 0).written
        = processedOut (centerFrame ref cx cy cz) skip (okFrames pre) 0 := by
  have hbad : ∀ m : ℕ,
      mainLoop (centerFrame ref cx cy cz) skip (Outcome.bad c :: rest) m
        = ⟨[], [], [Event.readFrameEv], 0⟩ := fun _ => rfl
  obtain ⟨hw, _, hc⟩ := mainLoop_append_ok (centerFrame ref cx cy cz) skip pre
    (Outcome.bad c :: rest) 0 hpre
  rw [hbad] at hw hc
  constructor
  · simp only [mainRun, hg, hs, hr, hx, ho, hv, hout]
    rw [hreads]
    simpa using hc
  · rw [hreads, hw]
    simp

/-- C7: a failed frame write aborts the streaming loop immediately with
return value 1: the failing frame and everything after it are not written,
no retry happens, and the frames already written (the processed frames of
the all-successful prefix) are left as they are.  The final conjunct lifts
this to the program exit code. -/
theorem c7_write_failure_fatal (pipe : FrameData → FrameData) (skip : ℕ)
    (pre rest : List Outcome) (f : FrameData) (env : Env)
    (cx cy cz : Bool) (s : System) (ref : List ℕ)
    (hpre : ∀ o ∈ pre, okW o = true) (hproc : pre.length % skip = 0)
    (hg : env.gro = some s) (hs : env.sel = some ref) (hr : ref.length ≠ 0)
    (hx : env.xtcSupplied = true) (ho : env.xtcOpenOk = true)
    (hv : env.validOk = true) (hout : env.outOpenOk = true)
    (hreads : env.reads = pre ++ Outcome.ok f false :: rest) :
    (mainLoop pipe skip (pre ++ Outcome.ok f false :: rest) 0).code = 1 ∧
    (mainLoop pipe skip (pre ++ Outcome.ok f false :: rest) 0).written
        = processedOut pipe skip (okFrames pre) 0 ∧
    (mainRun env skip cx cy cz).1 = 1 := by
  have hfail : ∀ (pp : FrameData → FrameData) (m : ℕ), m % skip = 0 →
      mainLoop pp skip (Outcome.ok f false :: rest) m
        = ⟨[], if f.timeTrunc % 10000 = 0 then [(f.step, f.timeTrunc)] else [],
           [Event.readFrameEv, Event.writeFrameEv], 1⟩ := by
    intro pp m hm
    simp [mainLoop, hm]
  have hz : (0 + pre.length) % skip = 0 := by simpa using hproc
  obtain ⟨hw, _, hc⟩ := mainLoop_append_ok pipe skip pre
    (Outcome.ok f false :: rest) 0 hpre
  rw [hfail pipe (0 + pre.length) hz] at hw hc
  obtain ⟨hw2, _, hc2⟩ := mainLoop_append_ok (centerFrame ref cx cy cz) skip pre
    (Outcome.ok f false :: rest) 0 hpre
  rw [hfail (centerFrame ref cx cy cz) (0 + pre.length) hz] at hw2 hc2
  refine ⟨by simpa using hc, by simpa using hw, ?_⟩
  simp only [mainRun, hg, hs, hr, hx, ho, hv, hout]
  rw [hreads]
  simpa using hc2

/-- Witness for C7: skip 1, one successfully written frame, then a frame
whose write fails, then a frame that is never reached. -/
theorem c7_write_failure_fatal_witness :
    (∀ o ∈ ([Outcome.ok fdA true] : List Outcome), okW o = true) ∧
    (([Outcome.ok fdA true] : List Outcome).length % 1 = 0) ∧
    ((envHappy [Outcome.ok fdA true, Outcome.ok fdB false, Outcome.ok fdC true]).reads
        = [Outcome.ok fdA true] ++ Outcome.ok fdB false :: [Outcome.ok fdC true]) ∧
    ((mainLoop id 1 ([Outcome.ok fdA true] ++ Outcome.ok fdB false :: [Outcome.ok fdC true]) 0).code = 1 ∧
     (mainLoop id 1 ([Outcome.ok fdA true] ++ Outcome.ok fdB false :: [Outcome.ok fdC true]) 0).written
        = processedOut id 1 (okFrames [Outcome.ok fdA true]) 0 ∧
     (mainRun (envHappy [Outcome.ok fdA true, Outcome.ok fdB false, Outcome.ok fdC true]) 1 true true true).1 = 1) :=
  ⟨by intro o hm; rcases List.mem_singleton.mp hm with rfl; rfl,
   by norm_num,
   rfl,
   c7_write_failure_fatal id 1 [Outcome.ok fdA true] [Outcome.ok fdC true] fdB
     (envHappy [Outcome.ok fdA true, Outcome.ok fdB false, Outcome.ok fdC true])
     true true true sysW [0, 1]
     (by intro o hm; rcases List.mem_singleton.mp hm with rfl; rfl)
     (by norm_num) rfl rfl (by norm_num) rfl rfl rfl rfl rfl⟩

/-- C10: progress reporting.  First conjunct: over any stream of successful
reads the progress messages are exactly one (step, time) pair per frame read
— skipped frames included, because the check precedes the skip test — for
precisely the frames whose truncated simulation time is divisible by 10000
(`progressOut` does not depend on the skip interval).  Second conjunct: the
progress side channel never affects what is written, the counter flow or the
return value: written frames and return value coincide with those of
`mainLoopNP`, the same loop with progress removed. -/
theorem c10_progress_reporting :
    (∀ (pipe : FrameData → FrameData) (skip : ℕ) (l : List FrameData) (n : ℕ),
      (mainLoop pipe skip (l.map fun f => Outcome.ok f true) n).progress
          = progressOut l) ∧
    (∀ (pipe : FrameData → FrameData) (skip : ℕ) (reads : List Outcome) (n : ℕ),
      (mainLoop pipe skip reads n).written = (mainLoopNP pipe skip reads n).1 ∧
      (mainLoop pipe skip reads n).code = (mainLoopNP pipe skip reads n).2) := by
  constructor
  · intro pipe skip l
    induction l with
    | nil => intro n; simp [mainLoop, progressOut]
    | cons f fs ih =>
      intro n
      rw [progressOut_cons, ← ih (n + 1)]
      by_cases hn : n % skip = 0
      · simp [mainLoop, hn]
      · simp [mainLoop, hn]
  · intro pipe skip reads
    induction reads with
    | nil => intro n; exact ⟨rfl, rfl⟩
    | cons o rest ih =>
      intro n
      cases o with
      | bad c => exact ⟨rfl, rfl⟩
      | ok f w =>
        obtain ⟨ihw, ihc⟩ := ih (n + 1)
        by_cases hn : n % skip = 0
        · cases w with
          | true => constructor <;> simp [mainLoop, mainLoopNP, hn, ihw, ihc]
          | false => constructor <;> simp [mainLoop, mainLoopNP, hn]
        · constructor <;> simp [mainLoop, mainLoopNP, hn, ihw, ihc]

/-- Witness for C6 (amended) at the concrete environment `envC6`: the read
stream is one good frame, then read code 5, then an unreached frame; the
program exits 0 and only the first frame is written. -/
theorem c6_read_error_conflated_witness :
    envC6.reads = [Outcome.ok fdA true] ++ Outcome.bad 5 :: [Outcome.ok fdB true] ∧
    (∀ o ∈ ([Outcome.ok fdA true] : List Outcome), okW o = true) ∧
    ((mainRun envC6 1 true true true).1 = 0 ∧
     (mainLoop (centerFrame [0, 1] true true true) 1 envC6.reads 0).written
        = processedOut (centerFrame [0, 1] true true true) 1
            (okFrames [Outcome.ok fdA true]) 0) :=
  ⟨rfl,
   by intro o hm; rcases List.mem_singleton.mp hm with rfl; rfl,
   c6_read_error_conflated envC6 1 true true true sysW [0, 1]
     [Outcome.ok fdA true] [Outcome.ok fdB true] 5
     rfl rfl (by norm_num) rfl rfl rfl rfl rfl
     (by intro o hm; rcases List.mem_singleton.mp hm with rfl; rfl)⟩

/-- C5: whenever the reference selection fails to resolve (NULL) or resolves
to zero atoms, the program exits with code 1 having performed only the gro
load and the ndx read — no trajectory or output I/O event is in the trace,
so the output file is never opened (src/main.c:170-179 precedes lines 183,
215 and 240). -/
theorem c5_selection_gating (env : Env) (skip : ℕ) (cx cy cz : Bool)
    (s : System) (hg : env.gro = some s)
    (hs : env.sel = none ∨ env.sel = some []) :
    mainRun env skip cx cy cz = (1, [Event.loadGroEv true, Event.readNdxEv]) := by
  rcases hs with hs | hs <;> simp [mainRun, hg, hs]

/-- Witness for C5 with an otherwise fully successful environment whose
selection resolves to zero atoms. -/
theorem c5_selection_gating_witness :
    ({ envHappy [] with sel := some [] } : Env).gro = some sysW ∧
    (({ envHappy [] with sel := some [] } : Env).sel = none ∨
     ({ envHappy [] with sel := some [] } : Env).sel = some []) ∧
    mainRun { envHappy [] with sel := some [] } 1 true true true
        = (1, [Event.loadGroEv true, Event.readNdxEv]) :=
  ⟨rfl, Or.inr rfl,
   c5_selection_gating { envHappy [] with sel := some [] } 1 true true true
     sysW rfl (Or.inr rfl)⟩

/-- C8: in trajectory mode the output file is opened only after the xtc file
opens successfully and its atom count matches the structure; if the open or
the validation fails, the program exits with code 1 and no output-open event
is ever in the trace. -/
theorem c8_no_output_on_prestream_failure (env : Env) (skip : ℕ)
    (cx cy cz : Bool) (s : System) (ref : List ℕ)
    (hg : env.gro = some s) (hs : env.sel = some ref) (hr : ref.length ≠ 0)
    (hx : env.xtcSupplied = true) :
    ((env.xtcOpenOk = false ∨ env.validOk = false) →
      (mainRun env skip cx cy cz).1 = 1 ∧
      ∀ b, Event.openOutputEv b ∉ (mainRun env skip cx cy cz).2) ∧
    (∀ b, Event.openOutputEv b ∈ (mainRun env skip cx cy cz).2 →
      env.xtcOpenOk = true ∧ env.validOk = true) := by
  cases hxo : env.xtcOpenOk with
  | false =>
    constructor
    · intro _
      constructor
      · simp [mainRun, hg, hs, hr, hx, hxo]
      · intro b
        simp [mainRun, hg, hs, hr, hx, hxo]
    · intro b hb
      simp [mainRun, hg, hs, hr, hx, hxo] at hb
  | true =>
    cases hvv : env.validOk with
    | false =>
      constructor
      · intro _
        constructor
        · simp [mainRun, hg, hs, hr, hx, hxo, hvv]
        · intro b
          simp [mainRun, hg, hs, hr, hx, hxo, hvv, resetVelocities]
      · intro b hb
        simp [mainRun, hg, hs, hr, hx, hxo, hvv, resetVelocities] at hb
    | true =>
      constructor
      · intro h
        rcases h with h | h <;> simp at h
      · intro b _
        exact ⟨rfl, rfl⟩

/-- Witness for C8 with an environment whose xtc open fails. -/
theorem c8_no_output_on_prestream_failure_witness :
    ({ envHappy [] with xtcOpenOk := false } : Env).gro = some sysW ∧
    ({ envHappy [] with xtcOpenOk := false } : Env).sel = some [0, 1] ∧
    (([0, 1] : List ℕ).length ≠ 0) ∧
    ({ envHappy [] with xtcOpenOk := false } : Env).xtcSupplied = true ∧
    (((({ envHappy [] with xtcOpenOk := false } : Env).xtcOpenOk = false ∨
        ({ envHappy [] with xtcOpenOk := false } : Env).validOk = false) →
      (mainRun { envHappy [] with xtcOpenOk := false } 1 true true true).1 = 1 ∧
      ∀ b, Event.openOutputEv b ∉
        (mainRun { envHappy [] with xtcOpenOk := false } 1 true true true).2) ∧
     (∀ b, Event.openOutputEv b ∈
        (mainRun { envHappy [] with xtcOpenOk := false } 1 true true true).2 →
      ({ envHappy [] with xtcOpenOk := false } : Env).xtcOpenOk = true ∧
      ({ envHappy [] with xtcOpenOk := false } : Env).validOk = true)) :=
  ⟨rfl, rfl, by norm_num, rfl,
   c8_no_output_on_prestream_failure { envHappy [] with xtcOpenOk := false }
     1 true true true sysW [0, 1] rfl rfl (by norm_num) rfl⟩

/-- C9: velocities.  In trajectory mode with a successful xtc open, the
fourth event of the run is a single velocity reset writing zeros over every
loaded velocity — it happens after the xtc open and before any frame read,
and no later event (in particular none of the frame events of the loop) is
another reset.  In single-frame mode there is no reset at all and the gro
write receives the velocities exactly as loaded.  Written xtc frames carry
no velocity data at all (the format has none), so no written frame depends
on the loaded velocities. -/
theorem c9_velocities_zeroed (env : Env) (skip : ℕ) (cx cy cz : Bool)
    (s : System) (ref : List ℕ)
    (hg : env.gro = some s) (hs : env.sel = some ref) (hr : ref.length ≠ 0) :
    (env.xtcSupplied = true → env.xtcOpenOk = true →
      ∃ tail,
        (mainRun env skip cx cy cz).2
            = [Event.loadGroEv true, Event.readNdxEv, Event.openXtcEv true,
               Event.resetVelEv (s.velocities.map fun _ => ⟨0, 0, 0⟩)] ++ tail ∧
        ∀ v, Event.resetVelEv v ∉ tail) ∧
    (env.xtcSupplied = false → env.outOpenOk = true →
      (mainRun env skip cx cy cz).2
          = [Event.loadGroEv true, Event.readNdxEv, Event.openOutputEv true,
             Event.writeGroEv s.velocities env.groWriteOk] ∧
      ∀ v, Event.resetVelEv v ∉ (mainRun env skip cx cy cz).2) := by
  constructor
  · intro hx ho
    cases hvv : env.validOk with
    | false =>
      refine ⟨[Event.validateEv false], ?_, ?_⟩
      · simp [mainRun, hg, hs, hr, hx, ho, hvv, resetVelocities]
      · intro v; simp
    | true =>
      cases hoo : env.outOpenOk with
      | false =>
        refine ⟨[Event.validateEv true, Event.openOutputEv false], ?_, ?_⟩
        · simp [mainRun, hg, hs, hr, hx, ho, hvv, hoo, resetVelocities]
        · intro v; simp
      | true =>
        refine ⟨[Event.validateEv true, Event.openOutputEv true]
            ++ (mainLoop (centerFrame ref cx cy cz) skip env.reads 0).events, ?_, ?_⟩
        · simp [mainRun, hg, hs, hr, hx, ho, hvv, hoo, resetVelocities]
        · intro v
          simp only [List.mem_append, List.mem_cons, List.not_mem_nil]
          rintro (h | h)
          · simp at h
          · exact mainLoop_no_resetVel (centerFrame ref cx cy cz) skip env.reads 0 v h
  · intro hx hoo
    constructor
    · simp [mainRun, hg, hs, hr, hx, hoo, centerSystem]
    · intro v
      simp [mainRun, hg, hs, hr, hx, hoo]

/-- Witness for C9 in trajectory mode over a one-frame stream (the
single-frame implication holds vacuously there). -/
theorem c9_velocities_zeroed_witness :
    (envHappy [Outcome.ok fdA true]).gro = some sysW ∧
    (envHappy [Outcome.ok fdA true]).sel = some [0, 1] ∧
    (([0, 1] : List ℕ).length ≠ 0) ∧
    (((envHappy [Outcome.ok fdA true]).xtcSupplied = true →
      (envHappy [Outcome.ok fdA true]).xtcOpenOk = true →
      ∃ tail,
        (mainRun (envHappy [Outcome.ok fdA true]) 1 true true true).2
            = [Event.loadGroEv true, Event.readNdxEv, Event.openXtcEv true,
               Event.resetVelEv (sysW.velocities.map fun _ => ⟨0, 0, 0⟩)] ++ tail ∧
        ∀ v, Event.resetVelEv v ∉ tail) ∧
     ((envHappy [Outcome.ok fdA true]).xtcSupplied = false →
      (envHappy [Outcome.ok fdA true]).outOpenOk = true →
      (mainRun (envHappy [Outcome.ok fdA true]) 1 true true true).2
          = [Event.loadGroEv true, Event.readNdxEv, Event.openOutputEv true,
             Event.writeGroEv sysW.velocities (envHappy [Outcome.ok fdA true]).groWriteOk] ∧
      ∀ v, Event.resetVelEv v ∉
        (mainRun (envHappy [Outcome.ok fdA true]) 1 true true true).2)) :=
  ⟨rfl, rfl, by norm_num,
   c9_velocities_zeroed (envHappy [Outcome.ok fdA true]) 1 true true true
     sysW [0, 1] rfl rfl (by norm_num)⟩

end Center
